import Mathlib

/-!
Verification of the SST breakout screener / backtest simulator.

The definitions below are a shallow embedding of the repository's core:
the backtest simulator `runBacktest` (lib/backtest.ts) and the signal
analyzer `analyzeStock` (lib/strategy.ts).  Prices and capital amounts are
modelled as rationals; calendar dates are modelled as integers counting whole
days (the code stores ISO date strings and converts differences of `Date`
values to days by dividing milliseconds by 86 400 000, which over whole-day
dates is the plain difference).  The `cagr` statistic uses real
exponentiation (`Math.pow`), so it is modelled separately over `ℝ`
(`cagrCalc`, `runBacktestCagr`) on top of the rational simulation.
-/

set_option maxRecDepth 100000

/-- One daily OHLCV bar (interface `DailyCandle` in lib/db.ts).  The `open`
field is renamed `open_` because `open` is a Lean keyword. -/
structure DailyCandle where
  symbol : String
  date : ℤ
  open_ : ℚ
  high : ℚ
  low : ℚ
  close : ℚ
  volume : ℚ
deriving DecidableEq, Repr, Inhabited

/-- `Math.max` over a list of rationals; the simulator only applies it to
nonempty 20-bar windows, the `[]` case is unreachable there. -/
def maxQ : List ℚ → ℚ
  | [] => 0
  | x :: xs => xs.foldl max x

/-- `Math.min` over a list of rationals (same remark as `maxQ`). -/
def minQ : List ℚ → ℚ
  | [] => 0
  | x :: xs => xs.foldl min x

/-- `Math.max(...candles.slice(i-20, i).map(c => c.high))`: the trailing
20-bar high used on day `i`. -/
def twentyDayHighOf (candles : List DailyCandle) (i : ℕ) : ℚ :=
  maxQ (((candles.drop (i - 20)).take 20).map DailyCandle.high)

/-- `Math.min(...candles.slice(i-20, i).map(c => c.low))`: the trailing
20-bar low used on day `i`. -/
def twentyDayLowOf (candles : List DailyCandle) (i : ℕ) : ℚ :=
  minQ (((candles.drop (i - 20)).take 20).map DailyCandle.low)

/-- Exit strategy selector (`type ExitStrategy` in lib/backtest.ts). -/
inductive ExitStrategy
  | WEIGHTED_AVERAGE
  | LIFO
deriving DecidableEq, Repr

/-- The parameters of `runBacktest`.  `perTradeAmount` is optional in the
source (`perTradeAmount?`), with fallback `initialCapital / 50`. -/
structure BTParams where
  symbol : String
  initialCapital : ℚ
  perTradeAmount : Option ℚ
  exitStrategy : ExitStrategy
  targetProfitPercent : ℚ
  avgLevels : ℕ
deriving DecidableEq, Repr

/-- `const tradeAmount = perTradeAmount ?? initialCapital / 50`. -/
def BTParams.tradeAmount (p : BTParams) : ℚ :=
  p.perTradeAmount.getD (p.initialCapital / 50)

/-- An open lot (the elements of `internalOpenPositions`). -/
structure Position where
  buyDate : ℤ
  buyPrice : ℚ
  quantity : ℤ
  buyNumber : ℕ
  targetPercent : ℚ
deriving DecidableEq, Repr, Inhabited

/-- A lot's individual target price `buyPrice * (1 + targetPercent / 100)`. -/
def Position.targetPrice (pos : Position) : ℚ :=
  pos.buyPrice * (1 + pos.targetPercent / 100)

/-- Interface `BacktestTrade`. -/
structure BacktestTrade where
  symbol : String
  buyDate : ℤ
  buyPrice : ℚ
  sellDate : ℤ
  sellPrice : ℚ
  buyNumber : ℕ
  targetPercent : ℚ
  profit : ℚ
  profitPercent : ℚ
  holdingDays : ℤ
deriving DecidableEq, Repr

/-- The `"BUY" | "SELL" | "SKIPPED"` activity kinds. -/
inductive ActivityType
  | BUY
  | SELL
  | SKIPPED
deriving DecidableEq, Repr

/-- Interface `TradeActivity`. -/
structure TradeActivity where
  symbol : String
  type : ActivityType
  price : ℚ
  quantity : ℤ
  amount : ℚ
  buyNumber : ℕ
  profit : Option ℚ
  date : ℤ
  holdingDays : Option ℤ
  purchaseDate : Option ℤ
deriving DecidableEq, Repr

/-- Interface `DailyState` (one daily ledger entry). -/
structure DailyState where
  date : ℤ
  cash : ℚ
  invested : ℚ
  equity : ℚ
  profit : ℚ
  activities : List TradeActivity
deriving DecidableEq, Repr, Inhabited

/-- Interface `OpenPosition` (unrealized snapshot of a lot). -/
structure OpenPosition where
  buyDate : ℤ
  buyPrice : ℚ
  quantity : ℤ
  buyNumber : ℕ
  targetPercent : ℚ
  currentPrice : ℚ
  currentValue : ℚ
  pnl : ℚ
  pnlPercent : ℚ
deriving DecidableEq, Repr

/-- Interface `BacktestResult`.  The `cagr` field is modelled separately as
`runBacktestCagr` because it uses real exponentiation. -/
structure BacktestResult where
  symbol : String
  startDate : ℤ
  endDate : ℤ
  initialCapital : ℚ
  finalCapital : ℚ
  totalTrades : ℕ
  winningTrades : ℕ
  losingTrades : ℕ
  winRate : ℚ
  totalProfit : ℚ
  totalProfitPercent : ℚ
  realizedProfit : ℚ
  unrealizedProfit : ℚ
  blockedCapital : ℚ
  maxDrawdown : ℚ
  trades : List BacktestTrade
  openPositions : List OpenPosition
  dailyLog : List DailyState
deriving DecidableEq, Repr, Inhabited

/-- The mutable state carried across the day loop of `runBacktest`. -/
structure SimState where
  cash : ℚ
  isTracking : Bool
  currentBuyNumber : ℕ
  positions : List Position
  maxEquity : ℚ
  maxDrawdown : ℚ
  trades : List BacktestTrade
  dailyLog : List DailyState
deriving DecidableEq, Repr

/-- `Math.ceil((sellDate - buyDate) / 86400000)` over whole-day dates. -/
def holdingDaysOf (buyDate sellDate : ℤ) : ℤ :=
  ⌈((sellDate - buyDate : ℤ) : ℚ)⌉

/-- The `BacktestTrade` recorded when a lot `pos` is sold on `sellDate` at
`sellPrice`. -/
def mkClosedTrade (symbol : String) (pos : Position) (sellDate : ℤ) (sellPrice : ℚ) :
    BacktestTrade :=
  { symbol := symbol
    buyDate := pos.buyDate
    buyPrice := pos.buyPrice
    sellDate := sellDate
    sellPrice := sellPrice
    buyNumber := pos.buyNumber
    targetPercent := pos.targetPercent
    profit := (sellPrice - pos.buyPrice) * (pos.quantity : ℚ)
    profitPercent := (sellPrice - pos.buyPrice) / pos.buyPrice * 100
    holdingDays := holdingDaysOf pos.buyDate sellDate }

/-- The SELL `TradeActivity` recorded when a lot `pos` is sold. -/
def mkSellActivity (symbol : String) (pos : Position) (sellDate : ℤ) (sellPrice : ℚ) :
    TradeActivity :=
  { symbol := symbol
    type := ActivityType.SELL
    price := sellPrice
    quantity := pos.quantity
    amount := (pos.quantity : ℚ) * sellPrice
    buyNumber := pos.buyNumber
    profit := some ((sellPrice - pos.buyPrice) * (pos.quantity : ℚ))
    date := sellDate
    holdingDays := some (holdingDaysOf pos.buyDate sellDate)
    purchaseDate := some pos.buyDate }

/-- `internalOpenPositions.reduce((sum, p) => sum + p.quantity, 0)`. -/
def totalQuantity (l : List Position) : ℤ :=
  l.foldl (fun s pos => s + pos.quantity) 0

/-- `internalOpenPositions.reduce((sum, p) => sum + p.quantity * p.buyPrice, 0)`. -/
def totalCost (l : List Position) : ℚ :=
  l.foldl (fun s pos => s + (pos.quantity : ℚ) * pos.buyPrice) 0

/-- `totalQty > 0 ? totalCost / totalQty : 0`. -/
def weightedAvgPrice (l : List Position) : ℚ :=
  if 0 < totalQuantity l then totalCost l / (totalQuantity l : ℚ) else 0

/-- `weightedAvgPrice * (1 + baseTargetPercent / 100)` where
`baseTargetPercent` is the target percent of `internalOpenPositions[0]`. -/
def aggTargetOf (l : List Position) : ℚ :=
  weightedAvgPrice l * (1 + (l.headD default).targetPercent / 100)

/-- The `internalOpenPositions.forEach` of the weighted-average exit: closes
every lot at the shared `sellPrice`, returning (closed trades, SELL
activities, total cash credited). -/
def waCloseAll (symbol : String) (day : DailyCandle) (sellPrice : ℚ) :
    List Position → List BacktestTrade × List TradeActivity × ℚ
  | [] => ([], [], 0)
  | pos :: rest =>
    let r := waCloseAll symbol day sellPrice rest
    (mkClosedTrade symbol pos day.date sellPrice :: r.1,
     mkSellActivity symbol pos day.date sellPrice :: r.2.1,
     (pos.quantity : ℚ) * sellPrice + r.2.2)

/-- The per-lot exit loop of the LIFO (legacy) branch: each lot whose own
target price is reached is closed at that target; the others are kept, in
order.  Returns (remaining lots, closed trades, SELL activities, total cash
credited). -/
def lifoSell (symbol : String) (day : DailyCandle) :
    List Position → List Position × List BacktestTrade × List TradeActivity × ℚ
  | [] => ([], [], [], 0)
  | pos :: rest =>
    let r := lifoSell symbol day rest
    if day.high ≥ pos.targetPrice then
      (r.1,
       mkClosedTrade symbol pos day.date pos.targetPrice :: r.2.1,
       mkSellActivity symbol pos day.date pos.targetPrice :: r.2.2.1,
       (pos.quantity : ℚ) * pos.targetPrice + r.2.2.2)
    else (pos :: r.1, r.2.1, r.2.2.1, r.2.2.2)

/-- Step 2 of the day loop: exit evaluation.  The weighted-average branch
requires at least one open lot; otherwise (including `LIFO`) the per-lot
loop runs.  Returns the updated state and today's SELL activities. -/
def sellPhase (p : BTParams) (day : DailyCandle) (st : SimState) :
    SimState × List TradeActivity :=
  if p.exitStrategy = ExitStrategy.WEIGHTED_AVERAGE ∧ st.positions ≠ [] then
    if day.high ≥ aggTargetOf st.positions then
      ({ st with
          positions := []
          trades := st.trades ++ (waCloseAll p.symbol day (aggTargetOf st.positions) st.positions).1
          cash := st.cash + (waCloseAll p.symbol day (aggTargetOf st.positions) st.positions).2.2 },
        (waCloseAll p.symbol day (aggTargetOf st.positions) st.positions).2.1)
    else (st, [])
  else
    ({ st with
        positions := (lifoSell p.symbol day st.positions).1
        trades := st.trades ++ (lifoSell p.symbol day st.positions).2.1
        cash := st.cash + (lifoSell p.symbol day st.positions).2.2.2 },
      (lifoSell p.symbol day st.positions).2.2.1)

/-- `if (internalOpenPositions.length === 0 && currentBuyNumber > 0)`: a
fully closed pyramiding cycle resets the sequence number and tracking. -/
def resetPhase (st : SimState) : SimState :=
  if st.positions = [] ∧ 0 < st.currentBuyNumber then
    { st with currentBuyNumber := 0, isTracking := false }
  else st

/-- `if (day.low <= twentyDayLow) isTracking = true`. -/
def armTracking (day : DailyCandle) (low20 : ℚ) (st : SimState) : SimState :=
  if day.low ≤ low20 then { st with isTracking := true } else st

/-- `Math.floor(tradeAmount / buyPrice)`. -/
def entryQty (p : BTParams) (buyPrice : ℚ) : ℤ :=
  ⌊p.tradeAmount / buyPrice⌋

/-- The `Lot` pushed on a successful buy (sequence number already
incremented from `prevBuyNumber`). -/
def newLot (p : BTParams) (day : DailyCandle) (buyPrice : ℚ) (prevBuyNumber : ℕ) : Position :=
  { buyDate := day.date
    buyPrice := buyPrice
    quantity := entryQty p buyPrice
    buyNumber := prevBuyNumber + 1
    targetPercent := p.targetProfitPercent }

/-- The BUY `TradeActivity` logged on a successful buy. -/
def buyActivity (p : BTParams) (day : DailyCandle) (buyPrice : ℚ) (prevBuyNumber : ℕ) :
    TradeActivity :=
  { symbol := p.symbol
    type := ActivityType.BUY
    price := buyPrice
    quantity := entryQty p buyPrice
    amount := (entryQty p buyPrice : ℚ) * buyPrice
    buyNumber := prevBuyNumber + 1
    profit := none
    date := day.date
    holdingDays := none
    purchaseDate := none }

/-- The SKIPPED `TradeActivity` logged when cash is insufficient. -/
def skippedActivity (p : BTParams) (day : DailyCandle) (buyPrice : ℚ) (prevBuyNumber : ℕ) :
    TradeActivity :=
  { symbol := p.symbol
    type := ActivityType.SKIPPED
    price := buyPrice
    quantity := 0
    amount := 0
    buyNumber := prevBuyNumber + 1
    profit := none
    date := day.date
    holdingDays := none
    purchaseDate := none }

/-- The breakout check `if (isTracking && day.high > twentyDayHigh)` with the
pyramid-level limit, the buy / skip decision and the tracking reset. -/
def buyCheck (p : BTParams) (day : DailyCandle) (high20 : ℚ) (st : SimState) :
    SimState × List TradeActivity :=
  if st.isTracking ∧ day.high > high20 then
    if st.currentBuyNumber < p.avgLevels then
      if 0 < entryQty p high20 ∧ (entryQty p high20 : ℚ) * high20 ≤ st.cash then
        ({ st with
            cash := st.cash - (entryQty p high20 : ℚ) * high20
            positions := st.positions ++ [newLot p day high20 st.currentBuyNumber]
            currentBuyNumber := st.currentBuyNumber + 1
            isTracking := false },
          [buyActivity p day high20 st.currentBuyNumber])
      else if 0 < entryQty p high20 ∧ st.cash < (entryQty p high20 : ℚ) * high20 then
        ({ st with currentBuyNumber := st.currentBuyNumber + 1, isTracking := false },
          [skippedActivity p day high20 st.currentBuyNumber])
      else
        ({ st with currentBuyNumber := st.currentBuyNumber + 1, isTracking := false }, [])
    else ({ st with isTracking := false }, [])
  else (st, [])

/-- Step 3 of the day loop: entry evaluation (arm tracking on a low touch,
then the breakout check). -/
def entryPhase (p : BTParams) (day : DailyCandle) (high20 low20 : ℚ) (st : SimState) :
    SimState × List TradeActivity :=
  buyCheck p day high20 (armTracking day low20 st)

/-- `invested += pos.quantity * day.close` (mark-to-market). -/
def investedOf (l : List Position) (price : ℚ) : ℚ :=
  l.foldl (fun s pos => s + (pos.quantity : ℚ) * price) 0

/-- Step 4 of the day loop: end-of-day accounting — equity, max drawdown and
the daily ledger entry (whose `profit` field is always written as 0). -/
def eodPhase (day : DailyCandle) (acts : List TradeActivity) (st : SimState) : SimState :=
  let invested := investedOf st.positions day.close
  let currentEquity := st.cash + invested
  let newMaxEquity := if currentEquity > st.maxEquity then currentEquity else st.maxEquity
  let drawdown := (newMaxEquity - currentEquity) / newMaxEquity * 100
  { st with
    maxEquity := newMaxEquity
    maxDrawdown := if drawdown > st.maxDrawdown then drawdown else st.maxDrawdown
    dailyLog := st.dailyLog ++
      [{ date := day.date
         cash := st.cash
         invested := invested
         equity := currentEquity
         profit := 0
         activities := acts }] }

/-- One iteration of `for (let i = 20; i < candles.length; i++)`. -/
def processDay (p : BTParams) (candles : List DailyCandle) (i : ℕ) (st : SimState) : SimState :=
  let day := candles.getD i default
  let r1 := sellPhase p day st
  let r2 := entryPhase p day (twentyDayHighOf candles i) (twentyDayLowOf candles i) (resetPhase r1.1)
  eodPhase day (r1.2 ++ r2.2) r2.1

/-- The initial state of the replay. -/
def initState (p : BTParams) : SimState :=
  { cash := p.initialCapital
    isTracking := false
    currentBuyNumber := 0
    positions := []
    maxEquity := p.initialCapital
    maxDrawdown := 0
    trades := []
    dailyLog := [] }

/-- The first `n` iterations of the day loop. -/
def simulateUpTo (p : BTParams) (candles : List DailyCandle) (n : ℕ) : SimState :=
  (List.range n).foldl (fun st k => processDay p candles (20 + k) st) (initState p)

/-- The whole day loop (`i` from 20 to `candles.length - 1`). -/
def simulate (p : BTParams) (candles : List DailyCandle) : SimState :=
  simulateUpTo p candles (candles.length - 20)

/-- The `OpenPosition` snapshot of a still-open lot at the last close. -/
def mkOpenPosition (lastPrice : ℚ) (pos : Position) : OpenPosition :=
  { buyDate := pos.buyDate
    buyPrice := pos.buyPrice
    quantity := pos.quantity
    buyNumber := pos.buyNumber
    targetPercent := pos.targetPercent
    currentPrice := lastPrice
    currentValue := (pos.quantity : ℚ) * lastPrice
    pnl := (pos.quantity : ℚ) * lastPrice - (pos.quantity : ℚ) * pos.buyPrice
    pnlPercent := ((pos.quantity : ℚ) * lastPrice - (pos.quantity : ℚ) * pos.buyPrice) /
      ((pos.quantity : ℚ) * pos.buyPrice) * 100 }

/-- The final-calculation block of `runBacktest`. -/
def buildResult (p : BTParams) (candles : List DailyCandle) (st : SimState) : BacktestResult :=
  let lastPrice := (candles.getLastD default).close
  let openPositions := st.positions.map (mkOpenPosition lastPrice)
  let closingPositionValue := (openPositions.map OpenPosition.currentValue).sum
  let finalCapital := st.cash + closingPositionValue
  let totalProfit := finalCapital - p.initialCapital
  let winningTrades := (st.trades.filter (fun t => decide (0 < t.profit))).length
  { symbol := p.symbol
    startDate := (candles.getD 20 default).date
    endDate := (candles.getLastD default).date
    initialCapital := p.initialCapital
    finalCapital := finalCapital
    totalTrades := st.trades.length
    winningTrades := winningTrades
    losingTrades := (st.trades.filter (fun t => decide (t.profit ≤ 0))).length
    winRate := if 0 < st.trades.length then
        (winningTrades : ℚ) / (st.trades.length : ℚ) * 100 else 0
    totalProfit := totalProfit
    totalProfitPercent := totalProfit / p.initialCapital * 100
    realizedProfit := (st.trades.map BacktestTrade.profit).sum
    unrealizedProfit := (openPositions.map OpenPosition.pnl).sum
    blockedCapital := (openPositions.map (fun q => (q.quantity : ℚ) * q.buyPrice)).sum
    maxDrawdown := st.maxDrawdown
    trades := st.trades
    openPositions := openPositions
    dailyLog := st.dailyLog }

/-- `runBacktest` (lib/backtest.ts): `null` on fewer than 21 bars, otherwise
the replayed `BacktestResult`. -/
def runBacktest (p : BTParams) (candles : List DailyCandle) : Option BacktestResult :=
  if candles.length < 21 then none
  else some (buildResult p candles (simulate p candles))

/-- The analyzer's regime (`type SSTStatus` in lib/strategy.ts). -/
inductive SSTStatus
  | NEUTRAL
  | TRACKING
  | BUY_TRIGGERED
deriving DecidableEq, Repr

/-- The mutable variables of `analyzeStock`'s history scan. -/
structure AnalyzerState where
  status : SSTStatus
  triggerDate : Option ℤ
  buyTriggerDate : Option ℤ
  isTracking : Bool
deriving DecidableEq, Repr

/-- Interface `SSTAnalysis`. -/
structure SSTAnalysis where
  symbol : String
  status : SSTStatus
  currentPrice : ℚ
  twentyDayHigh : ℚ
  twentyDayLow : ℚ
  triggerDate : Option ℤ
  buyTriggerDate : Option ℤ
  distanceToTrigger : ℚ
deriving DecidableEq, Repr

/-- One iteration of `analyzeStock`'s history scan: when not tracking, a low
touch arms TRACKING; when tracking, the breakout check runs first and then,
on the same day, the re-touch check runs and can override the status. -/
def analyzeStep (day : DailyCandle) (high20 low20 : ℚ) (st : AnalyzerState) : AnalyzerState :=
  if st.isTracking = false then
    if day.low ≤ low20 then
      { st with isTracking := true, triggerDate := some day.date, status := SSTStatus.TRACKING }
    else st
  else
    let st1 :=
      if day.high > high20 then
        { st with
            status := SSTStatus.BUY_TRIGGERED
            buyTriggerDate := some day.date
            isTracking := false }
      else st
    if day.low ≤ low20 then
      { st1 with triggerDate := some day.date, status := SSTStatus.TRACKING }
    else st1

/-- The initial analyzer state (`status = NEUTRAL`, not tracking). -/
def analyzerInit : AnalyzerState :=
  { status := SSTStatus.NEUTRAL, triggerDate := none, buyTriggerDate := none, isTracking := false }

/-- `analyzeStock` (lib/strategy.ts): `null` on fewer than 21 bars, otherwise
the replayed regime plus a snapshot against the most recent 20-bar window
(`candles.slice(-21, -1)`). -/
def analyzeStock (symbol : String) (candles : List DailyCandle) : Option SSTAnalysis :=
  if candles.length < 21 then none
  else
    let latest := candles.getLastD default
    let lookback := (candles.drop (candles.length - 21)).take 20
    let twentyDayHigh := maxQ (lookback.map DailyCandle.high)
    let twentyDayLow := minQ (lookback.map DailyCandle.low)
    let final := (List.range (candles.length - 20)).foldl
      (fun st k =>
        analyzeStep (candles.getD (20 + k) default)
          (twentyDayHighOf candles (20 + k)) (twentyDayLowOf candles (20 + k)) st)
      analyzerInit
    some
      { symbol := symbol
        status := final.status
        currentPrice := latest.close
        twentyDayHigh := twentyDayHigh
        twentyDayLow := twentyDayLow
        triggerDate := final.triggerDate
        buyTriggerDate := final.buyTriggerDate
        distanceToTrigger := (twentyDayHigh - latest.close) / latest.close * 100 }

/-- One row of the batch route's `portfolioDiary` (app/api backtest route). -/
structure DiaryEntry where
  date : ℤ
  cash : ℚ
  invested : ℚ
  portfolioValue : ℚ
  dayProfit : ℚ
  totalProfit : ℚ
  activities : List TradeActivity
deriving DecidableEq, Repr, Inhabited

/-- Helper of `fillDayProfit`: rewrites each entry's `dayProfit` to
`portfolioValue - prev.portfolioValue`, walking the list with the previous
entry at hand. -/
def fillDayProfitGo (prev : DiaryEntry) : List DiaryEntry → List DiaryEntry
  | [] => []
  | y :: ys =>
    { y with dayProfit := y.portfolioValue - prev.portfolioValue } :: fillDayProfitGo y ys

/-- The second pass of the batch route:
`for (i = 1; ...) diary[i].dayProfit = diary[i].portfolioValue - diary[i-1].portfolioValue`
(the first entry is left as constructed). -/
def fillDayProfit : List DiaryEntry → List DiaryEntry
  | [] => []
  | x :: xs => x :: fillDayProfitGo x xs

/-- `(endDate - startDate) / 86400000` in whole days, between the
first-evaluated bar `candles[20]` and the last bar. -/
def durationDaysOf (candles : List DailyCandle) : ℤ :=
  (candles.getLastD default).date - (candles.getD 20 default).date

/-- The CAGR block of `runBacktest` (lines computing `durationYears` and
`cagr`), over the reals since it uses `Math.pow`. -/
noncomputable def cagrCalc (initialCapital finalCapital durationDays : ℝ) : ℝ :=
  let durationYears := durationDays / 365.25
  if 0 < durationYears ∧ 0 < finalCapital then
    ((finalCapital / initialCapital) ^ (1 / durationYears) - 1) * 100
  else 0

/-- The `cagr` field of the `BacktestResult` produced by `runBacktest`,
modelled on top of the rational simulation. -/
noncomputable def runBacktestCagr (p : BTParams) (candles : List DailyCandle) : Option ℝ :=
  (runBacktest p candles).map fun r =>
    cagrCalc (p.initialCapital : ℝ) (r.finalCapital : ℝ) ((durationDaysOf candles : ℤ) : ℝ)

/-- A bar with the given date, high, low and close (concrete test data). -/
def mkBar (d : ℤ) (h l c : ℚ) : DailyCandle :=
  { symbol := default, date := d, open_ := c, high := h, low := l, close := c, volume := 0 }

/-- `n` identical bars (high 10, low 5, close 7) on consecutive days. -/
def flatBars (n : ℕ) : List DailyCandle :=
  (List.range n).map (fun k => mkBar k 10 5 7)

/-- Bars that arm tracking on day 20, buy on day 21's breakout (close 11),
then drift down on day 22 without reaching the exit target. -/
def driftBars : List DailyCandle :=
  flatBars 20 ++ [mkBar 20 10 5 7, mkBar 21 11 6 11, mkBar 22 10 6 9]

/-- Parameters: 1000 capital, 100 per trade, weighted-average exit, 6%
target, 3 levels. -/
def driftParams : BTParams :=
  { symbol := default
    initialCapital := 1000
    perTradeAmount := some 100
    exitStrategy := ExitStrategy.WEIGHTED_AVERAGE
    targetProfitPercent := 6
    avgLevels := 3 }

/-- Bars whose day 21 both breaks the prior 20-bar high (high 11 > 10) and
re-touches the prior 20-bar low (low 4 ≤ 5) while the analyzer is tracking
(armed on day 20). -/
def bothBars : List DailyCandle :=
  flatBars 20 ++ [mkBar 20 10 5 7, mkBar 21 11 4 7]

/-- Bars that buy on day 21 at price 10 (whole capital) and then meet any
nonpositive target on day 22. -/
def drainBars : List DailyCandle :=
  flatBars 20 ++ [mkBar 20 10 5 7, mkBar 21 11 6 10, mkBar 22 10 6 9]

/-- Degenerate parameters with `targetProfitPercent = -200`: the aggregate
exit target becomes negative and selling debits cash. -/
def drainParams : BTParams :=
  { symbol := default
    initialCapital := 1000
    perTradeAmount := some 1000
    exitStrategy := ExitStrategy.WEIGHTED_AVERAGE
    targetProfitPercent := -200
    avgLevels := 3 }

/-- Parameters used by several witnesses: 100 capital, 10 per trade. -/
def smallParams : BTParams :=
  { symbol := default
    initialCapital := 100
    perTradeAmount := some 10
    exitStrategy := ExitStrategy.WEIGHTED_AVERAGE
    targetProfitPercent := 6
    avgLevels := 3 }

lemma foldl_add_eq_sum {α : Type} (f : α → ℚ) :
    ∀ (l : List α) (a : ℚ), l.foldl (fun s x => s + f x) a = a + (l.map f).sum := by
  intro l
  induction l with
  | nil => intro a; simp
  | cons x xs ih => intro a; simp [ih]; ring

lemma foldl_add_eq_sum_int {α : Type} (f : α → ℤ) :
    ∀ (l : List α) (a : ℤ), l.foldl (fun s x => s + f x) a = a + (l.map f).sum := by
  intro l
  induction l with
  | nil => intro a; simp
  | cons x xs ih => intro a; simp [ih]; ring

lemma totalQuantity_eq_sum (l : List Position) :
    totalQuantity l = (l.map Position.quantity).sum := by
  simpa using foldl_add_eq_sum_int Position.quantity l 0

lemma totalCost_eq_sum (l : List Position) :
    totalCost l = (l.map (fun pos => (pos.quantity : ℚ) * pos.buyPrice)).sum := by
  simpa using foldl_add_eq_sum (fun pos => (pos.quantity : ℚ) * pos.buyPrice) l 0

lemma investedOf_eq_sum (l : List Position) (price : ℚ) :
    investedOf l price = (l.map (fun pos => (pos.quantity : ℚ) * price)).sum := by
  simpa [investedOf] using foldl_add_eq_sum (fun pos => (pos.quantity : ℚ) * price) l 0

lemma le_foldl_max_init : ∀ (l : List ℚ) (a : ℚ), a ≤ l.foldl max a := by
  intro l
  induction l with
  | nil => intro a; simp
  | cons x xs ih =>
    intro a
    calc a ≤ max a x := le_max_left a x
    _ ≤ xs.foldl max (max a x) := ih (max a x)

lemma le_foldl_max_of_mem : ∀ (l : List ℚ) (a x : ℚ), x ∈ l → x ≤ l.foldl max a := by
  intro l
  induction l with
  | nil => intro a x hx; cases hx
  | cons y ys ih =>
    intro a x hx
    rcases List.mem_cons.mp hx with h | h
    · subst h
      calc x ≤ max a x := le_max_right a x
      _ ≤ ys.foldl max (max a x) := le_foldl_max_init ys (max a x)
    · exact ih (max a y) x h

lemma foldl_max_mem : ∀ (l : List ℚ) (a : ℚ), l.foldl max a = a ∨ l.foldl max a ∈ l := by
  intro l
  induction l with
  | nil => intro a; left; rfl
  | cons x xs ih =>
    intro a
    rcases ih (max a x) with h | h
    · rcases le_total x a with hxa | hax
      · left
        rw [List.foldl_cons, h, max_eq_left hxa]
      · right
        rw [List.foldl_cons, h, max_eq_right hax]
        exact List.mem_cons_self x xs
    · right
      exact List.mem_cons_of_mem x h

lemma maxQ_mem : ∀ {l : List ℚ}, l ≠ [] → maxQ l ∈ l := by
  intro l hl
  match l with
  | x :: xs =>
    rcases foldl_max_mem xs x with h | h
    · simp [maxQ, h]
    · exact List.mem_cons_of_mem x (by simpa [maxQ] using h)

lemma le_maxQ {l : List ℚ} {x : ℚ} (hx : x ∈ l) : x ≤ maxQ l := by
  match l with
  | y :: ys =>
    rcases List.mem_cons.mp hx with h | h
    · subst h; simpa [maxQ] using le_foldl_max_init ys x
    · simpa [maxQ] using le_foldl_max_of_mem ys y x h

lemma maxQ_nonneg {l : List ℚ} (h : ∀ x ∈ l, 0 ≤ x) : 0 ≤ maxQ l := by
  match l with
  | [] => simp [maxQ]
  | x :: xs => exact le_trans (h x (List.mem_cons_self x xs)) (le_maxQ (List.mem_cons_self x xs))

lemma waCloseAll_eq (symbol : String) (day : DailyCandle) (sellPrice : ℚ) :
    ∀ (l : List Position),
      waCloseAll symbol day sellPrice l =
        (l.map (fun pos => mkClosedTrade symbol pos day.date sellPrice),
         l.map (fun pos => mkSellActivity symbol pos day.date sellPrice),
         (l.map (fun pos => (pos.quantity : ℚ) * sellPrice)).sum) := by
  intro l
  induction l with
  | nil => simp [waCloseAll]
  | cons pos rest ih => simp [waCloseAll, ih]

lemma lifoSell_eq (symbol : String) (day : DailyCandle) :
    ∀ (l : List Position),
      lifoSell symbol day l =
        (l.filter (fun pos => decide (day.high < pos.targetPrice)),
         (l.filter (fun pos => decide (pos.targetPrice ≤ day.high))).map
           (fun pos => mkClosedTrade symbol pos day.date pos.targetPrice),
         (l.filter (fun pos => decide (pos.targetPrice ≤ day.high))).map
           (fun pos => mkSellActivity symbol pos day.date pos.targetPrice),
         ((l.filter (fun pos => decide (pos.targetPrice ≤ day.high))).map
           (fun pos => (pos.quantity : ℚ) * pos.targetPrice)).sum) := by
  intro l
  induction l with
  | nil => simp [lifoSell]
  | cons pos rest ih =>
    by_cases h : pos.targetPrice ≤ day.high
    · have h' : ¬ day.high < pos.targetPrice := not_lt.mpr h
      simp [lifoSell, ih, h, h', ge_iff_le]
    · have h' : day.high < pos.targetPrice := lt_of_not_le h
      simp [lifoSell, ih, h, h', ge_iff_le, not_le.mpr h']

lemma simulateUpTo_succ (p : BTParams) (candles : List DailyCandle) (n : ℕ) :
    simulateUpTo p candles (n + 1) =
      processDay p candles (20 + n) (simulateUpTo p candles n) := by
  simp [simulateUpTo, List.range_succ]

lemma fillDayProfitGo_length (prev : DiaryEntry) :
    ∀ (l : List DiaryEntry), (fillDayProfitGo prev l).length = l.length := by
  intro l
  induction l generalizing prev with
  | nil => simp [fillDayProfitGo]
  | cons y ys ih => simp [fillDayProfitGo, ih]

lemma fillDayProfitGo_getD :
    ∀ (l : List DiaryEntry) (prev : DiaryEntry) (i : ℕ), i < l.length →
      (fillDayProfitGo prev l).getD i default =
        { (l.getD i default) with
            dayProfit := (l.getD i default).portfolioValue -
              ((prev :: l).getD i default).portfolioValue } := by
  intro l
  induction l with
  | nil => intro prev i hi; simp at hi
  | cons y ys ih =>
    intro prev i hi
    cases i with
    | zero => simp [fillDayProfitGo]
    | succ j =>
      simp only [fillDayProfitGo, List.getD_cons_succ]
      exact ih y j (by simpa using hi)

/-- The daily ledger is untouched by the exit phase. -/
lemma sellPhase_dailyLog (p : BTParams) (day : DailyCandle) (st : SimState) :
    ((sellPhase p day st).1).dailyLog = st.dailyLog := by
  rw [sellPhase]
  split_ifs <;> rfl

lemma resetPhase_dailyLog (st : SimState) : (resetPhase st).dailyLog = st.dailyLog := by
  rw [resetPhase]; split_ifs <;> rfl

lemma armTracking_dailyLog (day : DailyCandle) (low20 : ℚ) (st : SimState) :
    (armTracking day low20 st).dailyLog = st.dailyLog := by
  rw [armTracking]; split_ifs <;> rfl

lemma buyCheck_dailyLog (p : BTParams) (day : DailyCandle) (high20 : ℚ) (st : SimState) :
    ((buyCheck p day high20 st).1).dailyLog = st.dailyLog := by
  rw [buyCheck]; split_ifs <;> rfl

lemma entryPhase_dailyLog (p : BTParams) (day : DailyCandle) (high20 low20 : ℚ) (st : SimState) :
    ((entryPhase p day high20 low20 st).1).dailyLog = st.dailyLog := by
  rw [entryPhase, buyCheck_dailyLog, armTracking_dailyLog]

/-- `processDay` appends exactly one ledger entry, whose `profit` field is 0
and whose `cash` field is the post-trade cash of the day. -/
lemma processDay_dailyLog (p : BTParams) (candles : List DailyCandle) (i : ℕ) (st : SimState) :
    (processDay p candles i st).dailyLog =
      st.dailyLog ++
        [{ date := (candles.getD i default).date
           cash := (entryPhase p (candles.getD i default)
             (twentyDayHighOf candles i) (twentyDayLowOf candles i)
             (resetPhase (sellPhase p (candles.getD i default) st).1)).1.cash
           invested := investedOf (entryPhase p (candles.getD i default)
             (twentyDayHighOf candles i) (twentyDayLowOf candles i)
             (resetPhase (sellPhase p (candles.getD i default) st).1)).1.positions
             (candles.getD i default).close
           equity := (entryPhase p (candles.getD i default)
               (twentyDayHighOf candles i) (twentyDayLowOf candles i)
               (resetPhase (sellPhase p (candles.getD i default) st).1)).1.cash +
             investedOf (entryPhase p (candles.getD i default)
               (twentyDayHighOf candles i) (twentyDayLowOf candles i)
               (resetPhase (sellPhase p (candles.getD i default) st).1)).1.positions
               (candles.getD i default).close
           profit := 0
           activities := (sellPhase p (candles.getD i default) st).2 ++
             (entryPhase p (candles.getD i default)
               (twentyDayHighOf candles i) (twentyDayLowOf candles i)
               (resetPhase (sellPhase p (candles.getD i default) st).1)).2 }] := by
  rw [processDay]
  simp only [eodPhase]
  rw [entryPhase_dailyLog, resetPhase_dailyLog, sellPhase_dailyLog]

/-- C7: with fewer than 21 bars both `analyzeStock` and `runBacktest` return
`none` (an absence value — both functions are total, no exception is
possible); with at least 21 bars both return a result. -/
theorem insufficient_data_is_absence (sym : String) (p : BTParams) (candles : List DailyCandle) :
    (candles.length < 21 → analyzeStock sym candles = none ∧ runBacktest p candles = none)
    ∧ (21 ≤ candles.length →
        (analyzeStock sym candles).isSome ∧ (runBacktest p candles).isSome) := by
  constructor
  · intro h
    exact ⟨by simp [analyzeStock, h], by simp [runBacktest, h]⟩
  · intro h
    have h' : ¬ candles.length < 21 := not_lt.mpr h
    exact ⟨by simp [analyzeStock, h'], by simp [runBacktest, h']⟩

/-- Witness for C7: a 10-bar history yields `none` from both functions, a
21-bar history yields a result from both. -/
theorem insufficient_data_is_absence_witness :
    (analyzeStock default (flatBars 10) = none ∧ runBacktest smallParams (flatBars 10) = none)
    ∧ ((analyzeStock default (flatBars 21)).isSome
        ∧ (runBacktest smallParams (flatBars 21)).isSome) :=
  ⟨(insufficient_data_is_absence default smallParams (flatBars 10)).1 (by decide),
   (insufficient_data_is_absence default smallParams (flatBars 21)).2 (by decide)⟩

/-- C6 counterexample: on `bothBars`, day 21 (while tracking) both breaks the
prior 20-bar high (11 > 10) and touches the prior 20-bar low (4 ≤ 5); the
analyzer's reported status after that day is TRACKING, not BUY_TRIGGERED
(though `buyTriggerDate` records that the breakout check did fire). -/
theorem breakout_tie_break_cex :
    (analyzeStock default bothBars).map SSTAnalysis.status = some SSTStatus.TRACKING
    ∧ (analyzeStock default bothBars).map SSTAnalysis.buyTriggerDate = some (some 21)
    ∧ SSTStatus.TRACKING ≠ SSTStatus.BUY_TRIGGERED := by
  refine ⟨by decide, by decide, by decide⟩

/-- C6 (amended): on a day where, while tracking, both the breakout and the
re-touch conditions hold, the breakout check is evaluated first (it records
`buyTriggerDate` and disarms tracking), but the re-touch check still runs on
the same day and overrides the reported status, so the status after that day
is TRACKING; and a fresh low-touch on any later day likewise leaves the
status TRACKING. -/
theorem breakout_tie_break (day : DailyCandle) (high20 low20 : ℚ)
    (st : AnalyzerState) (htrack : st.isTracking = true)
    (hbo : day.high > high20) (hlo : day.low ≤ low20) :
    (analyzeStep day high20 low20 st).status = SSTStatus.TRACKING
    ∧ (analyzeStep day high20 low20 st).buyTriggerDate = some day.date
    ∧ (analyzeStep day high20 low20 st).isTracking = false
    ∧ (analyzeStep day high20 low20 st).triggerDate = some day.date
    ∧ ∀ (day' : DailyCandle) (high' low' : ℚ) (st' : AnalyzerState),
        day'.low ≤ low' → (analyzeStep day' high' low' st').status = SSTStatus.TRACKING := by
  have h1 : ¬ st.isTracking = false := by simp [htrack]
  refine ⟨by simp [analyzeStep, h1, hbo, hlo], by simp [analyzeStep, h1, hbo, hlo],
    by simp [analyzeStep, h1, hbo, hlo], by simp [analyzeStep, h1, hbo, hlo], ?_⟩
  intro day' high' low' st' hlo'
  by_cases h : st'.isTracking = false <;> by_cases h2 : day'.high > high' <;>
    simp [analyzeStep, h, h2, hlo']

/-- Witness for C6's amended statement at a concrete tracking state and a
day whose range spans the whole window. -/
theorem breakout_tie_break_witness :
    (analyzeStep (mkBar 21 11 4 7) 10 5
        { status := SSTStatus.TRACKING, triggerDate := some 20,
          buyTriggerDate := none, isTracking := true }).status = SSTStatus.TRACKING
    ∧ (analyzeStep (mkBar 21 11 4 7) 10 5
        { status := SSTStatus.TRACKING, triggerDate := some 20,
          buyTriggerDate := none, isTracking := true }).buyTriggerDate = some 21
    ∧ (analyzeStep (mkBar 21 11 4 7) 10 5
        { status := SSTStatus.TRACKING, triggerDate := some 20,
          buyTriggerDate := none, isTracking := true }).isTracking = false
    ∧ (analyzeStep (mkBar 21 11 4 7) 10 5
        { status := SSTStatus.TRACKING, triggerDate := some 20,
          buyTriggerDate := none, isTracking := true }).triggerDate = some 21
    ∧ ∀ (day' : DailyCandle) (high' low' : ℚ) (st' : AnalyzerState),
        day'.low ≤ low' → (analyzeStep day' high' low' st').status = SSTStatus.TRACKING :=
  breakout_tie_break (mkBar 21 11 4 7) 10 5
    { status := SSTStatus.TRACKING, triggerDate := some 20,
      buyTriggerDate := none, isTracking := true }
    (by decide) (by decide) (by decide)

/-- C5 counterexample: on `driftBars` the equity moves from 1000 (day 20) to
1010 (day 21, after a buy whose close rose), yet the returned
`BacktestResult`'s second ledger entry still carries `profit = 0` — the
`dayProfit` field is NOT filled in `runBacktest`'s own result. -/
theorem dayprofit_second_pass_cex :
    (runBacktest driftParams driftBars).map
        (fun r => ((r.dailyLog.getD 1 default).profit,
          (r.dailyLog.getD 1 default).equity - (r.dailyLog.getD 0 default).equity))
      = some (0, 10)
    ∧ (0 : ℚ) ≠ 10 := by
  exact ⟨by with_unfolding_all decide, by decide⟩

/-- C5 (amended): `runBacktest` itself leaves every daily ledger entry's
`profit` field at 0; the second pass computing day profits as differences of
consecutive portfolio values (first entry untouched at its constructed 0)
exists only in the batch route, applied to the aggregated portfolio diary
(`fillDayProfit`). -/
theorem dayprofit_stays_zero_in_result :
    (∀ (p : BTParams) (candles : List DailyCandle) (r : BacktestResult),
        runBacktest p candles = some r → ∀ e ∈ r.dailyLog, e.profit = 0)
    ∧ (∀ (l : List DiaryEntry),
        (fillDayProfit l).length = l.length
        ∧ (∀ x xs, l = x :: xs → (fillDayProfit l).getD 0 default = x)
        ∧ ∀ i, i + 1 < l.length →
            (fillDayProfit l).getD (i + 1) default =
              { (l.getD (i + 1) default) with
                  dayProfit := (l.getD (i + 1) default).portfolioValue -
                    (l.getD i default).portfolioValue }) := by
  constructor
  · have key : ∀ (p : BTParams) (candles : List DailyCandle) (n : ℕ),
        ∀ e ∈ (simulateUpTo p candles n).dailyLog, e.profit = 0 := by
      intro p candles n
      induction n with
      | zero => intro e he; simp [simulateUpTo, initState] at he
      | succ n ih =>
        intro e he
        rw [simulateUpTo_succ, processDay_dailyLog] at he
        rcases List.mem_append.mp he with h | h
        · exact ih e h
        · simp only [List.mem_singleton] at h
          subst h
          rfl
    intro p candles r hr e he
    rw [runBacktest] at hr
    split_ifs at hr with h
    cases hr
    exact key p candles (candles.length - 20) e (by simpa [buildResult, simulate] using he)
  · intro l
    refine ⟨?_, ?_, ?_⟩
    · cases l with
      | nil => rfl
      | cons x xs => simp [fillDayProfit, fillDayProfitGo_length]
    · intro x xs hl
      subst hl
      rfl
    · intro i hi
      cases l with
      | nil => simp at hi
      | cons x xs =>
        simp only [fillDayProfit, List.getD_cons_succ]
        have hxs : i < xs.length := by simpa using hi
        rw [fillDayProfitGo_getD xs x i hxs]

/-- Two concrete diary rows used by the C5 witness. -/
def diaryA : DiaryEntry :=
  { date := 0, cash := 100, invested := 0, portfolioValue := 100, dayProfit := 0,
    totalProfit := 0, activities := [] }

/-- Second concrete diary row (portfolio value 110). -/
def diaryB : DiaryEntry :=
  { date := 1, cash := 0, invested := 110, portfolioValue := 110, dayProfit := 0,
    totalProfit := 10, activities := [] }

/-- Witness for C5's amended statement: a concrete run's ledger keeps
`profit = 0`, and `fillDayProfit` rewrites the second diary row's day profit
to the portfolio-value difference. -/
theorem dayprofit_stays_zero_in_result_witness :
    (∀ e ∈ ((runBacktest smallParams (flatBars 21)).getD default).dailyLog, e.profit = 0)
    ∧ (fillDayProfit [diaryA, diaryB]).getD 1 default =
        { diaryB with dayProfit := diaryB.portfolioValue - diaryA.portfolioValue } := by
  constructor
  · intro e he
    have hr : runBacktest smallParams (flatBars 21) =
        some ((runBacktest smallParams (flatBars 21)).getD default) := by
      with_unfolding_all decide
    exact dayprofit_stays_zero_in_result.1 smallParams (flatBars 21) _ hr e he
  · have h := (dayprofit_stays_zero_in_result.2 [diaryA, diaryB]).2.2 0 (by decide)
    simpa using h

/-- C1: in WEIGHTED_AVERAGE mode, on a day whose high reaches the aggregate
target price `T = (totalCost / totalQuantity) * (1 + baseTargetPercent/100)`
(base target percent from the first, oldest, open lot), the exit phase closes
ALL open lots at the shared price `T`, emitting one closed trade and one SELL
activity per lot built from that lot's own entry data, and credits
`quantity * T` to cash for every lot. -/
theorem weighted_average_closes_all (p : BTParams) (day : DailyCandle) (st : SimState)
    (pos0 : Position) (rest : List Position) (T : ℚ)
    (hstrat : p.exitStrategy = ExitStrategy.WEIGHTED_AVERAGE)
    (hpos : st.positions = pos0 :: rest)
    (hqty : 0 < totalQuantity st.positions)
    (hT : T = totalCost st.positions / (totalQuantity st.positions : ℚ) *
      (1 + pos0.targetPercent / 100))
    (hhit : day.high ≥ T) :
    (sellPhase p day st).1.positions = []
    ∧ (sellPhase p day st).1.trades =
        st.trades ++ st.positions.map (fun pos => mkClosedTrade p.symbol pos day.date T)
    ∧ (sellPhase p day st).2 =
        st.positions.map (fun pos => mkSellActivity p.symbol pos day.date T)
    ∧ (sellPhase p day st).1.cash =
        st.cash + (st.positions.map (fun pos => (pos.quantity : ℚ) * T)).sum := by
  have hT' : aggTargetOf st.positions = T := by
    rw [aggTargetOf, weightedAvgPrice, if_pos hqty, hT, hpos]
    rfl
  have hcond : p.exitStrategy = ExitStrategy.WEIGHTED_AVERAGE ∧ st.positions ≠ [] :=
    ⟨hstrat, by simp [hpos]⟩
  rw [sellPhase, if_pos hcond, hT', if_pos hhit, waCloseAll_eq]
  exact ⟨rfl, rfl, rfl, rfl⟩

/-- A lot bought at 100 with a 10% target (older, first entry). -/
def lotOlderHighTarget : Position :=
  { buyDate := 0, buyPrice := 100, quantity := 1, buyNumber := 1, targetPercent := 10 }

/-- A lot bought at 100 with a 2% target (newer, second entry). -/
def lotNewerLowTarget : Position :=
  { buyDate := 1, buyPrice := 100, quantity := 1, buyNumber := 2, targetPercent := 2 }

/-- A state holding the two lots above with zero cash. -/
def twoLotState : SimState :=
  { cash := 0
    isTracking := false
    currentBuyNumber := 2
    positions := [lotOlderHighTarget, lotNewerLowTarget]
    maxEquity := 200
    maxDrawdown := 0
    trades := []
    dailyLog := [] }

/-- A day with high 105 and low 90 (reaches only the 2% target of 102). -/
def day105 : DailyCandle := mkBar 5 105 90 100

/-- Parameters as `smallParams` but with the LIFO exit strategy. -/
def lifoParams : BTParams :=
  { smallParams with exitStrategy := ExitStrategy.LIFO }

/-- A day with high 112 (reaches the aggregate 10% target of 110). -/
def day112 : DailyCandle := mkBar 5 112 95 111

/-- Witness for C1: both lots (average price 100, base target 10% from the
first lot, so `T = 110`) close on a high of 112; cash is credited 220. -/
theorem weighted_average_closes_all_witness :
    (sellPhase smallParams day112 twoLotState).1.positions = []
    ∧ (sellPhase smallParams day112 twoLotState).1.trades =
        twoLotState.trades ++ twoLotState.positions.map
          (fun pos => mkClosedTrade smallParams.symbol pos day112.date 110)
    ∧ (sellPhase smallParams day112 twoLotState).2 =
        twoLotState.positions.map
          (fun pos => mkSellActivity smallParams.symbol pos day112.date 110)
    ∧ (sellPhase smallParams day112 twoLotState).1.cash =
        twoLotState.cash + (twoLotState.positions.map
          (fun pos => (pos.quantity : ℚ) * 110)).sum :=
  weighted_average_closes_all smallParams day112 twoLotState
    lotOlderHighTarget [lotNewerLowTarget] 110
    (by decide) (by decide) (by with_unfolding_all decide)
    (by with_unfolding_all decide) (by with_unfolding_all decide)

/-- C2: in LIFO mode the exit phase closes exactly those open lots whose own
target price `buyPrice * (1 + targetPercent/100)` is at most the day's high,
each at its own target price; lots whose target is not reached remain open
and unchanged, in entry order (the iteration is in entry order, not strict
last-in-first-out), and cash is credited the sum of `quantity * target` over
the closed lots. -/
theorem lifo_closes_lots_independently (p : BTParams) (day : DailyCandle) (st : SimState)
    (hstrat : p.exitStrategy = ExitStrategy.LIFO) :
    (sellPhase p day st).1.positions =
        st.positions.filter (fun pos => decide (day.high < pos.targetPrice))
    ∧ (sellPhase p day st).1.trades =
        st.trades ++ (st.positions.filter (fun pos => decide (pos.targetPrice ≤ day.high))).map
          (fun pos => mkClosedTrade p.symbol pos day.date pos.targetPrice)
    ∧ (sellPhase p day st).2 =
        (st.positions.filter (fun pos => decide (pos.targetPrice ≤ day.high))).map
          (fun pos => mkSellActivity p.symbol pos day.date pos.targetPrice)
    ∧ (sellPhase p day st).1.cash =
        st.cash + ((st.positions.filter (fun pos => decide (pos.targetPrice ≤ day.high))).map
          (fun pos => (pos.quantity : ℚ) * pos.targetPrice)).sum := by
  have hcond : ¬ (p.exitStrategy = ExitStrategy.WEIGHTED_AVERAGE ∧ st.positions ≠ []) := by
    simp [hstrat]
  rw [sellPhase, if_neg hcond, lifoSell_eq]
  exact ⟨rfl, rfl, rfl, rfl⟩

/-- Witness for C2: on a high of 105 the newer lot with the lower target
(102) closes while the older lot with the higher target (110) stays open. -/
theorem lifo_closes_lots_independently_witness :
    (sellPhase lifoParams day105 twoLotState).1.positions =
        twoLotState.positions.filter (fun pos => decide (day105.high < pos.targetPrice))
    ∧ (sellPhase lifoParams day105 twoLotState).1.trades =
        twoLotState.trades ++
          (twoLotState.positions.filter
            (fun pos => decide (pos.targetPrice ≤ day105.high))).map
            (fun pos => mkClosedTrade lifoParams.symbol pos day105.date pos.targetPrice)
    ∧ (sellPhase lifoParams day105 twoLotState).2 =
        (twoLotState.positions.filter
          (fun pos => decide (pos.targetPrice ≤ day105.high))).map
          (fun pos => mkSellActivity lifoParams.symbol pos day105.date pos.targetPrice)
    ∧ (sellPhase lifoParams day105 twoLotState).1.cash =
        twoLotState.cash + ((twoLotState.positions.filter
          (fun pos => decide (pos.targetPrice ≤ day105.high))).map
          (fun pos => (pos.quantity : ℚ) * pos.targetPrice)).sum :=
  lifo_closes_lots_independently lifoParams day105 twoLotState (by decide)

lemma armTracking_cash (day : DailyCandle) (low20 : ℚ) (st : SimState) :
    (armTracking day low20 st).cash = st.cash := by
  rw [armTracking]; split_ifs <;> rfl

lemma armTracking_positions (day : DailyCandle) (low20 : ℚ) (st : SimState) :
    (armTracking day low20 st).positions = st.positions := by
  rw [armTracking]; split_ifs <;> rfl

lemma armTracking_buyNumber (day : DailyCandle) (low20 : ℚ) (st : SimState) :
    (armTracking day low20 st).currentBuyNumber = st.currentBuyNumber := by
  rw [armTracking]; split_ifs <;> rfl

lemma armTracking_trades (day : DailyCandle) (low20 : ℚ) (st : SimState) :
    (armTracking day low20 st).trades = st.trades := by
  rw [armTracking]; split_ifs <;> rfl

lemma armTracking_isTracking (day : DailyCandle) (low20 : ℚ) (st : SimState) :
    ((armTracking day low20 st).isTracking = true) ↔
      (day.low ≤ low20 ∨ st.isTracking = true) := by
  rw [armTracking]; split_ifs with h <;> simp [h]

/-- If the breakout check emits a BUY activity, all entry guards held and the
new state extends the lot list by exactly the new lot. -/
lemma buyCheck_buy_mem (p : BTParams) (day : DailyCandle) (high20 : ℚ) (s : SimState)
    (a : TradeActivity) (ha : a ∈ (buyCheck p day high20 s).2)
    (htype : a.type = ActivityType.BUY) :
    s.isTracking = true ∧ day.high > high20 ∧ s.currentBuyNumber < p.avgLevels
    ∧ 0 < entryQty p high20 ∧ (entryQty p high20 : ℚ) * high20 ≤ s.cash
    ∧ a = buyActivity p day high20 s.currentBuyNumber
    ∧ (buyCheck p day high20 s).1.currentBuyNumber = s.currentBuyNumber + 1
    ∧ (buyCheck p day high20 s).1.positions =
        s.positions ++ [newLot p day high20 s.currentBuyNumber] := by
  rw [buyCheck] at ha ⊢
  split_ifs at ha ⊢ with h1 h2 h3 h4
  · rcases List.mem_singleton.mp ha with rfl
    refine ⟨by simpa using h1.1, h1.2, h2, h3.1, h3.2, rfl, rfl, rfl⟩
  · rcases List.mem_singleton.mp ha with rfl
    simp [skippedActivity] at htype
  · cases ha
  · cases ha
  · cases ha

/-- C3: part one — whenever the entry phase emits a BUY activity, the entry
guards held (tracking armed by a previous or same-day low touch, breakout
above the window high, sequence number below the pyramid limit), the
activity's price is the window high `high20` (not the day's traded price),
its quantity is `floor(tradeAmount / high20)`, the sequence number is
incremented, and the one new lot carries exactly those fields with the flat
`targetProfitPercent`.  Part two — the `high20` used by `processDay` on day
`i`, namely `twentyDayHighOf candles i`, is the maximum of the highs of
`candles[i-20..i-1]`. -/
theorem buy_enters_at_breakout_level :
    (∀ (p : BTParams) (day : DailyCandle) (high20 low20 : ℚ) (st : SimState)
        (a : TradeActivity),
        a ∈ (entryPhase p day high20 low20 st).2 → a.type = ActivityType.BUY →
          st.currentBuyNumber < p.avgLevels
          ∧ day.high > high20
          ∧ (day.low ≤ low20 ∨ st.isTracking = true)
          ∧ a.price = high20
          ∧ a.quantity = ⌊p.tradeAmount / high20⌋
          ∧ a.buyNumber = st.currentBuyNumber + 1
          ∧ (entryPhase p day high20 low20 st).1.currentBuyNumber =
              st.currentBuyNumber + 1
          ∧ (entryPhase p day high20 low20 st).1.positions =
              st.positions ++
                [{ buyDate := day.date
                   buyPrice := high20
                   quantity := ⌊p.tradeAmount / high20⌋
                   buyNumber := st.currentBuyNumber + 1
                   targetPercent := p.targetProfitPercent }])
    ∧ (∀ (candles : List DailyCandle) (i : ℕ), 20 ≤ i → i < candles.length →
        (((candles.drop (i - 20)).take 20).map DailyCandle.high).maximum =
          (twentyDayHighOf candles i : WithBot ℚ)) := by
  constructor
  · intro p day high20 low20 st a ha htype
    rw [entryPhase] at ha ⊢
    have h := buyCheck_buy_mem p day high20 (armTracking day low20 st) a ha htype
    rw [armTracking_buyNumber] at h
    rw [armTracking_positions] at h
    refine ⟨h.2.2.1, h.2.1, (armTracking_isTracking day low20 st).mp h.1, ?_, ?_, ?_,
      h.2.2.2.2.2.2.1, h.2.2.2.2.2.2.2⟩
    · rw [h.2.2.2.2.2.1]; rfl
    · rw [h.2.2.2.2.2.1]; rfl
    · rw [h.2.2.2.2.2.1]; rfl
  · intro candles i h20 hlen
    have hlength : (((candles.drop (i - 20)).take 20).map DailyCandle.high).length = 20 := by
      rw [List.length_map, List.length_take, List.length_drop]
      omega
    have hne : (((candles.drop (i - 20)).take 20).map DailyCandle.high) ≠ [] := by
      intro h
      rw [h] at hlength
      simp at hlength
    exact List.maximum_eq_coe_iff.mpr
      ⟨maxQ_mem hne, fun b hb => le_maxQ hb⟩

/-- The breakout day used by the C3 witness: high 11 breaks the window high
10, low 4 arms tracking the same day. -/
def buyDay : DailyCandle := mkBar 21 11 4 11

/-- Witness for C3: from the fresh state, `buyDay` emits a BUY at the window
high 10 with quantity `floor(10 / 10) = 1`, sequence number 1, and the flat
6% target; and the window maximum of 21 flat bars is their common high. -/
theorem buy_enters_at_breakout_level_witness :
    ((initState smallParams).currentBuyNumber < smallParams.avgLevels
      ∧ buyDay.high > 10
      ∧ (buyDay.low ≤ 5 ∨ (initState smallParams).isTracking = true)
      ∧ (buyActivity smallParams buyDay 10 0).price = 10
      ∧ (buyActivity smallParams buyDay 10 0).quantity = ⌊smallParams.tradeAmount / 10⌋
      ∧ (buyActivity smallParams buyDay 10 0).buyNumber =
          (initState smallParams).currentBuyNumber + 1
      ∧ (entryPhase smallParams buyDay 10 5 (initState smallParams)).1.currentBuyNumber =
          (initState smallParams).currentBuyNumber + 1
      ∧ (entryPhase smallParams buyDay 10 5 (initState smallParams)).1.positions =
          (initState smallParams).positions ++
            [{ buyDate := buyDay.date
               buyPrice := 10
               quantity := ⌊smallParams.tradeAmount / 10⌋
               buyNumber := (initState smallParams).currentBuyNumber + 1
               targetPercent := smallParams.targetProfitPercent }])
    ∧ ((((flatBars 21).drop 0).take 20).map DailyCandle.high).maximum =
        (twentyDayHighOf (flatBars 21) 20 : WithBot ℚ) :=
  ⟨buy_enters_at_breakout_level.1 smallParams buyDay 10 5 (initState smallParams)
      (buyActivity smallParams buyDay 10 0)
      (by with_unfolding_all decide) (by decide),
   buy_enters_at_breakout_level.2 (flatBars 21) 20 (by decide) (by decide)⟩

/-- C8: on a breakout day (tracking armed, high above the window high,
sequence number below the pyramid limit), if the computed quantity is
positive but cash is below `quantity * entryPrice`, the entry phase emits
exactly one SKIPPED activity and creates no lot, leaves cash (and the trade
list) unchanged; and if the computed quantity is 0, it emits no activity at
all. -/
theorem insufficient_cash_skips (p : BTParams) (day : DailyCandle) (high20 low20 : ℚ)
    (st : SimState)
    (harm : day.low ≤ low20 ∨ st.isTracking = true)
    (hbo : day.high > high20)
    (hlvl : st.currentBuyNumber < p.avgLevels) :
    (0 < entryQty p high20 → st.cash < (entryQty p high20 : ℚ) * high20 →
      (entryPhase p day high20 low20 st).2 =
        [{ symbol := p.symbol
           type := ActivityType.SKIPPED
           price := high20
           quantity := 0
           amount := 0
           buyNumber := st.currentBuyNumber + 1
           profit := none
           date := day.date
           holdingDays := none
           purchaseDate := none }]
      ∧ (entryPhase p day high20 low20 st).1.positions = st.positions
      ∧ (entryPhase p day high20 low20 st).1.cash = st.cash
      ∧ (entryPhase p day high20 low20 st).1.trades = st.trades)
    ∧ (entryQty p high20 = 0 → (entryPhase p day high20 low20 st).2 = []) := by
  have htrack : (armTracking day low20 st).isTracking = true :=
    (armTracking_isTracking day low20 st).mpr harm
  constructor
  · intro hq hcash
    rw [entryPhase, buyCheck]
    rw [armTracking_cash, armTracking_buyNumber]
    rw [if_pos (And.intro htrack hbo), if_pos hlvl]
    have hnb : ¬ (0 < entryQty p high20 ∧ (entryQty p high20 : ℚ) * high20 ≤ st.cash) := by
      intro hc
      exact absurd hc.2 (not_le.mpr hcash)
    rw [if_neg hnb, if_pos (And.intro hq hcash)]
    exact ⟨rfl, by simp [armTracking_positions], rfl, by simp [armTracking_trades]⟩
  · intro hq0
    rw [entryPhase, buyCheck]
    rw [armTracking_cash, armTracking_buyNumber]
    rw [if_pos (And.intro htrack hbo), if_pos hlvl]
    have hb1 : ¬ (0 < entryQty p high20 ∧ (entryQty p high20 : ℚ) * high20 ≤ st.cash) := by
      intro hc
      rw [hq0] at hc
      exact absurd hc.1 (lt_irrefl 0)
    have hb2 : ¬ (0 < entryQty p high20 ∧ st.cash < (entryQty p high20 : ℚ) * high20) := by
      intro hc
      rw [hq0] at hc
      exact absurd hc.1 (lt_irrefl 0)
    rw [if_neg hb1, if_neg hb2]

/-- A fresh state with only 5 cash (not enough for one share at price 10). -/
def poorState : SimState := { initState smallParams with cash := 5 }

/-- Parameters whose per-trade amount 5 makes the computed quantity
`floor(5 / 10) = 0` at entry price 10. -/
def tinyParams : BTParams := { smallParams with perTradeAmount := some 5 }

/-- Witness for C8: with 5 cash a valid breakout at price 10 yields exactly
one SKIPPED activity and no lot or cash change; with a per-trade amount of 5
the computed quantity is 0 and no activity is emitted. -/
theorem insufficient_cash_skips_witness :
    ((entryPhase smallParams buyDay 10 5 poorState).2 =
        [{ symbol := smallParams.symbol
           type := ActivityType.SKIPPED
           price := 10
           quantity := 0
           amount := 0
           buyNumber := poorState.currentBuyNumber + 1
           profit := none
           date := buyDay.date
           holdingDays := none
           purchaseDate := none }]
      ∧ (entryPhase smallParams buyDay 10 5 poorState).1.positions = poorState.positions
      ∧ (entryPhase smallParams buyDay 10 5 poorState).1.cash = poorState.cash
      ∧ (entryPhase smallParams buyDay 10 5 poorState).1.trades = poorState.trades)
    ∧ (entryPhase tinyParams buyDay 10 5 (initState tinyParams)).2 = [] :=
  ⟨(insufficient_cash_skips smallParams buyDay 10 5 poorState
      (Or.inl (by decide)) (by decide) (by decide)).1
      (by with_unfolding_all decide) (by with_unfolding_all decide),
   (insufficient_cash_skips tinyParams buyDay 10 5 (initState tinyParams)
      (Or.inl (by decide)) (by decide) (by decide)).2
      (by with_unfolding_all decide)⟩

lemma sellPhase_no_positions (p : BTParams) (day : DailyCandle) (st : SimState)
    (hpos : st.positions = []) : sellPhase p day st = (st, []) := by
  rcases st with ⟨c, it, bn, pos, me, md, trs, dl⟩
  change pos = [] at hpos
  subst hpos
  have hcond : ¬ (p.exitStrategy = ExitStrategy.WEIGHTED_AVERAGE ∧
      (SimState.mk c it bn [] me md trs dl).positions ≠ []) := by
    simp
  rw [sellPhase, if_neg hcond]
  simp [lifoSell]

lemma buyCheck_no_breakout (p : BTParams) (day : DailyCandle) (high20 : ℚ) (s : SimState)
    (hnb : ¬ day.high > high20) : buyCheck p day high20 s = (s, []) := by
  rw [buyCheck, if_neg]
  intro hc
  exact hnb hc.2

lemma eodPhase_positions (day : DailyCandle) (acts : List TradeActivity) (st : SimState) :
    (eodPhase day acts st).positions = st.positions := rfl

lemma eodPhase_trades (day : DailyCandle) (acts : List TradeActivity) (st : SimState) :
    (eodPhase day acts st).trades = st.trades := rfl

lemma eodPhase_buyNumber (day : DailyCandle) (acts : List TradeActivity) (st : SimState) :
    (eodPhase day acts st).currentBuyNumber = st.currentBuyNumber := rfl

lemma eodPhase_cash (day : DailyCandle) (acts : List TradeActivity) (st : SimState) :
    (eodPhase day acts st).cash = st.cash := rfl

lemma processDay_preserves_when_no_breakout (p : BTParams) (candles : List DailyCandle)
    (i : ℕ) (st : SimState)
    (hpos : st.positions = []) (htr : st.trades = []) (hbn : st.currentBuyNumber = 0)
    (hnb : ¬ (candles.getD i default).high > twentyDayHighOf candles i) :
    (processDay p candles i st).positions = []
    ∧ (processDay p candles i st).trades = []
    ∧ (processDay p candles i st).currentBuyNumber = 0
    ∧ (processDay p candles i st).cash = st.cash := by
  have hreset : resetPhase st = st := by
    rw [resetPhase, if_neg]
    simp [hbn]
  have hentry : entryPhase p (candles.getD i default)
      (twentyDayHighOf candles i) (twentyDayLowOf candles i) st =
      (armTracking (candles.getD i default) (twentyDayLowOf candles i) st, []) := by
    rw [entryPhase, buyCheck_no_breakout _ _ _ _ hnb]
  simp only [processDay, sellPhase_no_positions p _ st hpos, hreset, hentry,
    eodPhase_positions, eodPhase_trades, eodPhase_buyNumber, eodPhase_cash,
    armTracking_positions, armTracking_trades, armTracking_buyNumber, armTracking_cash]
  exact ⟨hpos, htr, hbn, trivial⟩

lemma simulate_no_breakout (p : BTParams) (candles : List DailyCandle)
    (hnb : ∀ i, i < candles.length → 20 ≤ i →
      ¬ (candles.getD i default).high > twentyDayHighOf candles i) :
    ∀ n, n ≤ candles.length - 20 →
      (simulateUpTo p candles n).positions = []
      ∧ (simulateUpTo p candles n).trades = []
      ∧ (simulateUpTo p candles n).currentBuyNumber = 0
      ∧ (simulateUpTo p candles n).cash = p.initialCapital := by
  intro n
  induction n with
  | zero => intro _; exact ⟨rfl, rfl, rfl, rfl⟩
  | succ n ih =>
    intro hn
    obtain ⟨h1, h2, h3, h4⟩ := ih (Nat.le_of_succ_le hn)
    have hi : 20 + n < candles.length := by omega
    rw [simulateUpTo_succ]
    obtain ⟨g1, g2, g3, g4⟩ := processDay_preserves_when_no_breakout p candles (20 + n)
      (simulateUpTo p candles n) h1 h2 h3 (hnb (20 + n) hi (by omega))
    exact ⟨g1, g2, g3, by rw [g4, h4]⟩

/-- C4: on a bar history of at least 21 bars in which no day ever exceeds its
trailing 20-bar high, `runBacktest` returns a result with an empty trade
list, zero total trades, no open positions, and final capital equal to the
initial capital. -/
theorem no_breakout_no_trades (p : BTParams) (candles : List DailyCandle)
    (h21 : 21 ≤ candles.length)
    (hnb : ∀ i, i < candles.length → 20 ≤ i →
      (candles.getD i default).high ≤ twentyDayHighOf candles i) :
    ∃ r, runBacktest p candles = some r ∧ r.trades = [] ∧ r.totalTrades = 0
      ∧ r.openPositions = [] ∧ r.finalCapital = p.initialCapital := by
  have h' : ¬ candles.length < 21 := not_lt.mpr h21
  obtain ⟨h1, h2, h3, h4⟩ := simulate_no_breakout p candles
    (fun i hi h20 => not_lt.mpr (hnb i hi h20)) (candles.length - 20) le_rfl
  have hsim : simulate p candles = simulateUpTo p candles (candles.length - 20) := rfl
  refine ⟨buildResult p candles (simulate p candles), by rw [runBacktest, if_neg h'],
    ?_, ?_, ?_, ?_⟩
  · simp only [buildResult, hsim, h2]
  · simp only [buildResult, hsim, h2]
    rfl
  · simp only [buildResult, hsim, h1]
    rfl
  · simp only [buildResult, hsim, h1, h4]
    simp

/-- Witness for C4: 21 identical bars never break out, so the run returns
zero trades and an unchanged capital of 100. -/
theorem no_breakout_no_trades_witness :
    ∃ r, runBacktest smallParams (flatBars 21) = some r ∧ r.trades = [] ∧ r.totalTrades = 0
      ∧ r.openPositions = [] ∧ r.finalCapital = smallParams.initialCapital :=
  no_breakout_no_trades smallParams (flatBars 21) (by decide)
    (by with_unfolding_all decide)

/-- The lot-level facts the cash invariant needs: nonnegative entry price,
positive quantity, and the flat parameter target percent. -/
def LotsOK (p : BTParams) (l : List Position) : Prop :=
  ∀ pos ∈ l, 0 ≤ pos.buyPrice ∧ 0 < pos.quantity ∧
    pos.targetPercent = p.targetProfitPercent

lemma targetPrice_nonneg (p : BTParams) (pos : Position)
    (htp : -100 ≤ p.targetProfitPercent) (h1 : 0 ≤ pos.buyPrice)
    (h3 : pos.targetPercent = p.targetProfitPercent) : 0 ≤ pos.targetPrice := by
  rw [Position.targetPrice, h3]
  have h2 : 0 ≤ 1 + p.targetProfitPercent / 100 := by linarith
  exact mul_nonneg h1 h2

lemma totalCost_nonneg (p : BTParams) (l : List Position) (hl : LotsOK p l) :
    0 ≤ totalCost l := by
  rw [totalCost_eq_sum]
  apply List.sum_nonneg
  intro x hx
  obtain ⟨pos, hpos, rfl⟩ := List.mem_map.mp hx
  have h := hl pos hpos
  have hq : (0 : ℚ) ≤ (pos.quantity : ℚ) := by exact_mod_cast le_of_lt h.2.1
  exact mul_nonneg hq h.1

lemma weightedAvgPrice_nonneg (p : BTParams) (l : List Position) (hl : LotsOK p l) :
    0 ≤ weightedAvgPrice l := by
  rw [weightedAvgPrice]
  split_ifs with h
  · have hq : (0 : ℚ) ≤ (totalQuantity l : ℚ) := by exact_mod_cast le_of_lt h
    exact div_nonneg (totalCost_nonneg p l hl) hq
  · exact le_refl 0

lemma headD_mem {l : List Position} (hne : l ≠ []) : l.headD default ∈ l := by
  match l with
  | [] => exact absurd rfl hne
  | x :: xs => exact List.mem_cons_self x xs

lemma aggTargetOf_nonneg (p : BTParams) (l : List Position)
    (htp : -100 ≤ p.targetProfitPercent) (hl : LotsOK p l) (hne : l ≠ []) :
    0 ≤ aggTargetOf l := by
  rw [aggTargetOf]
  have h := hl (l.headD default) (headD_mem hne)
  have h2 : 0 ≤ 1 + (l.headD default).targetPercent / 100 := by
    rw [h.2.2]
    linarith
  exact mul_nonneg (weightedAvgPrice_nonneg p l hl) h2

lemma sellPhase_inv (p : BTParams) (day : DailyCandle) (st : SimState)
    (htp : -100 ≤ p.targetProfitPercent)
    (hl : LotsOK p st.positions) (hc : 0 ≤ st.cash) :
    0 ≤ (sellPhase p day st).1.cash ∧ LotsOK p (sellPhase p day st).1.positions := by
  rw [sellPhase]
  split_ifs with h1 h2
  · constructor
    · show 0 ≤ st.cash + (waCloseAll p.symbol day (aggTargetOf st.positions) st.positions).2.2
      rw [waCloseAll_eq]
      apply add_nonneg hc
      apply List.sum_nonneg
      intro x hx
      obtain ⟨pos, hpos, rfl⟩ := List.mem_map.mp hx
      have hq : (0 : ℚ) ≤ (pos.quantity : ℚ) := by
        exact_mod_cast le_of_lt (hl pos hpos).2.1
      exact mul_nonneg hq (aggTargetOf_nonneg p st.positions htp hl h1.2)
    · intro pos hpos
      simp at hpos
  · exact ⟨hc, hl⟩
  · constructor
    · show 0 ≤ st.cash + (lifoSell p.symbol day st.positions).2.2.2
      rw [lifoSell_eq]
      apply add_nonneg hc
      apply List.sum_nonneg
      intro x hx
      obtain ⟨pos, hpos, rfl⟩ := List.mem_map.mp hx
      have hmem : pos ∈ st.positions := List.mem_of_mem_filter hpos
      have h := hl pos hmem
      have hq : (0 : ℚ) ≤ (pos.quantity : ℚ) := by exact_mod_cast le_of_lt h.2.1
      exact mul_nonneg hq (targetPrice_nonneg p pos htp h.1 h.2.2)
    · intro pos hpos
      have hpos' : pos ∈ (lifoSell p.symbol day st.positions).1 := hpos
      rw [lifoSell_eq] at hpos'
      exact hl pos (List.mem_of_mem_filter hpos')

lemma resetPhase_cash (st : SimState) : (resetPhase st).cash = st.cash := by
  rw [resetPhase]; split_ifs <;> rfl

lemma resetPhase_positions (st : SimState) : (resetPhase st).positions = st.positions := by
  rw [resetPhase]; split_ifs <;> rfl

lemma buyCheck_inv (p : BTParams) (day : DailyCandle) (high20 : ℚ) (s : SimState)
    (hh : 0 ≤ high20) (hl : LotsOK p s.positions) (hc : 0 ≤ s.cash) :
    0 ≤ (buyCheck p day high20 s).1.cash ∧ LotsOK p (buyCheck p day high20 s).1.positions := by
  rw [buyCheck]
  split_ifs with h1 h2 h3 h4
  · constructor
    · show 0 ≤ s.cash - (entryQty p high20 : ℚ) * high20
      linarith [h3.2]
    · intro pos hpos
      rcases List.mem_append.mp hpos with h | h
      · exact hl pos h
      · rcases List.mem_singleton.mp h with rfl
        exact ⟨hh, h3.1, rfl⟩
  · exact ⟨hc, hl⟩
  · exact ⟨hc, hl⟩
  · exact ⟨hc, hl⟩
  · exact ⟨hc, hl⟩

lemma twentyDayHighOf_nonneg (candles : List DailyCandle) (i : ℕ)
    (h : ∀ c ∈ candles, 0 ≤ c.high) : 0 ≤ twentyDayHighOf candles i := by
  rw [twentyDayHighOf]
  apply maxQ_nonneg
  intro x hx
  obtain ⟨c, hc, rfl⟩ := List.mem_map.mp hx
  exact h c (List.drop_subset _ _ (List.take_subset _ _ hc))

/-- The cash invariant: nonnegative cash, well-formed lots, and every logged
entry's cash nonnegative. -/
def CashInv (p : BTParams) (st : SimState) : Prop :=
  0 ≤ st.cash ∧ LotsOK p st.positions ∧ ∀ e ∈ st.dailyLog, 0 ≤ e.cash

lemma processDay_inv (p : BTParams) (candles : List DailyCandle) (i : ℕ) (st : SimState)
    (htp : -100 ≤ p.targetProfitPercent)
    (hhigh : ∀ c ∈ candles, 0 ≤ c.high)
    (hInv : CashInv p st) : CashInv p (processDay p candles i st) := by
  obtain ⟨hc, hl, hlog⟩ := hInv
  obtain ⟨hc1, hl1⟩ := sellPhase_inv p (candles.getD i default) st htp hl hc
  have hc2 : 0 ≤ (resetPhase (sellPhase p (candles.getD i default) st).1).cash := by
    rw [resetPhase_cash]; exact hc1
  have hl2 : LotsOK p (resetPhase (sellPhase p (candles.getD i default) st).1).positions := by
    rw [resetPhase_positions]; exact hl1
  have hc3 : 0 ≤ (armTracking (candles.getD i default) (twentyDayLowOf candles i)
      (resetPhase (sellPhase p (candles.getD i default) st).1)).cash := by
    rw [armTracking_cash]; exact hc2
  have hl3 : LotsOK p (armTracking (candles.getD i default) (twentyDayLowOf candles i)
      (resetPhase (sellPhase p (candles.getD i default) st).1)).positions := by
    rw [armTracking_positions]; exact hl2
  obtain ⟨hc4, hl4⟩ := buyCheck_inv p (candles.getD i default) (twentyDayHighOf candles i) _
    (twentyDayHighOf_nonneg candles i hhigh) hl3 hc3
  refine ⟨?_, ?_, ?_⟩
  · show 0 ≤ (processDay p candles i st).cash
    rw [processDay]
    rw [eodPhase_cash]
    exact hc4
  · show LotsOK p (processDay p candles i st).positions
    rw [processDay]
    rw [eodPhase_positions]
    exact hl4
  · intro e he
    rw [processDay_dailyLog] at he
    rcases List.mem_append.mp he with h | h
    · exact hlog e h
    · rcases List.mem_singleton.mp h with rfl
      exact hc4

/-- C10 counterexample: with nonnegative initial capital 1000 and 23 bars
(length ≥ 21) but a degenerate `targetProfitPercent = -200`, the replay buys
the whole capital at 10 on day 21 and then "sells" all lots at the negative
aggregate target -10 on day 22, driving the ledger's cash to -1000 < 0. -/
theorem cash_nonnegative_cex :
    (runBacktest drainParams drainBars).map
        (fun r => (r.dailyLog.getD 2 default).cash) = some (-1000)
    ∧ (0 : ℚ) ≤ drainParams.initialCapital
    ∧ 21 ≤ drainBars.length
    ∧ ¬ (0 : ℚ) ≤ (-1000 : ℚ) := by
  refine ⟨by with_unfolding_all decide, by decide, by decide, by decide⟩

/-- C10 (amended): when additionally every bar's high is nonnegative and
`targetProfitPercent ≥ -100` (so no exit price can be negative), cash never
goes negative during the replay: every deduction is guarded by
`cash ≥ quantity * entryPrice` and every sale credits a nonnegative amount,
so every daily ledger entry's cash (including the final day's) is ≥ 0. -/
theorem cash_nonnegative (p : BTParams) (candles : List DailyCandle) (r : BacktestResult)
    (hic : 0 ≤ p.initialCapital)
    (htp : -100 ≤ p.targetProfitPercent)
    (hhigh : ∀ c ∈ candles, 0 ≤ c.high)
    (hr : runBacktest p candles = some r) :
    ∀ e ∈ r.dailyLog, 0 ≤ e.cash := by
  have key : ∀ n, CashInv p (simulateUpTo p candles n) := by
    intro n
    induction n with
    | zero =>
      refine ⟨hic, ?_, ?_⟩
      · intro pos hpos
        simp [simulateUpTo, initState] at hpos
      · intro e he
        simp [simulateUpTo, initState] at he
    | succ n ih =>
      rw [simulateUpTo_succ]
      exact processDay_inv p candles (20 + n) _ htp hhigh ih
  intro e he
  rw [runBacktest] at hr
  split_ifs at hr with h
  cases hr
  exact (key (candles.length - 20)).2.2 e (by simpa [buildResult, simulate] using he)

/-- Witness for C10's amended statement: on the drift scenario with the
normal 6% target, the day-21 ledger entry's cash is nonnegative. -/
theorem cash_nonnegative_witness :
    0 ≤ ((((runBacktest driftParams driftBars).getD default).dailyLog).getD 1 default).cash := by
  have hr : runBacktest driftParams driftBars =
      some ((runBacktest driftParams driftBars).getD default) := by
    with_unfolding_all decide
  exact cash_nonnegative driftParams driftBars _ (by decide) (by decide)
    (by with_unfolding_all decide) hr _ (by with_unfolding_all decide)

/-- C9: the `cagr` of a returned backtest uses the elapsed days between the
first-evaluated bar (`candles[20]`) and the last bar with
`years = days / 365.25`, and equals
`((finalCapital / initialCapital) ^ (1 / years) - 1) * 100` when `years > 0`
and `finalCapital > 0` (else 0); consequently, when
`finalCapital = initialCapital * (1 + g) ^ years`, the reported CAGR
recovers `g * 100` exactly. -/
theorem cagr_roundtrip (p : BTParams) (candles : List DailyCandle) (g : ℝ)
    (hic : 0 < (p.initialCapital : ℝ))
    (hg : 0 < 1 + g)
    (hy : 0 < ((durationDaysOf candles : ℤ) : ℝ) / 365.25)
    (hfc : (runBacktest p candles).map (fun r => (r.finalCapital : ℝ)) =
      some ((p.initialCapital : ℝ) *
        (1 + g) ^ (((durationDaysOf candles : ℤ) : ℝ) / 365.25))) :
    runBacktestCagr p candles = some (g * 100) := by
  cases hrb : runBacktest p candles with
  | none => rw [hrb] at hfc; cases hfc
  | some r =>
    rw [hrb] at hfc
    rw [Option.map_some'] at hfc
    have hfc' : (r.finalCapital : ℝ) = (p.initialCapital : ℝ) *
        (1 + g) ^ (((durationDaysOf candles : ℤ) : ℝ) / 365.25) :=
      Option.some.inj hfc
    rw [runBacktestCagr, hrb, Option.map_some']
    congr 1
    simp only [cagrCalc]
    rw [if_pos]
    · rw [hfc']
      have h1 : (p.initialCapital : ℝ) *
          (1 + g) ^ (((durationDaysOf candles : ℤ) : ℝ) / 365.25) / (p.initialCapital : ℝ) =
          (1 + g) ^ (((durationDaysOf candles : ℤ) : ℝ) / 365.25) := by
        field_simp
      rw [h1, ← Real.rpow_mul (le_of_lt hg), mul_one_div_cancel (ne_of_gt hy),
        Real.rpow_one]
      ring
    · exact ⟨hy, by rw [hfc']; exact mul_pos hic (Real.rpow_pos_of_pos hg _)⟩

/-- Witness for C9 with `g = 0`: a 22-bar flat history makes no trades, so
final capital equals the initial 100 and the reported CAGR is 0. -/
theorem cagr_roundtrip_witness :
    runBacktestCagr smallParams (flatBars 22) = some (0 * 100) := by
  have hdur : durationDaysOf (flatBars 22) = 1 := by decide
  apply cagr_roundtrip smallParams (flatBars 22) 0
  · show (0 : ℝ) < ((100 : ℚ) : ℝ)
    norm_num
  · norm_num
  · rw [hdur]
    norm_num
  · have h1 : (runBacktest smallParams (flatBars 22)).map
        (fun r => r.finalCapital) = some 100 := by
      with_unfolding_all decide
    cases hrb : runBacktest smallParams (flatBars 22) with
    | none => rw [hrb] at h1; cases h1
    | some r =>
      rw [hrb, Option.map_some'] at h1
      have h2 : r.finalCapital = 100 := Option.some.inj h1
      rw [Option.map_some', h2, hdur]
      norm_num [Real.one_rpow, smallParams]
